import Mathlib

set_option maxRecDepth 8000

/- Shallow embedding of scripts/extract_transcripts.py.

   Strings are modeled as Lean strings (lists of unicode scalar values), and
   the Python string methods used by the script (strip, splitlines, isdigit,
   isalnum, upper, lower, startswith, replace, membership) are modeled on the
   ASCII fragment that the script manipulates.  External collaborators (HTTP
   via urlopen, the youtube-transcript-api library, the yt-dlp metadata
   extractor) are modeled as oracle functions packaged in a World structure.
   json.loads is modeled by an executable JSON parser over the JSON subset the
   script exchanges (objects, arrays, strings, integers, booleans, null). -/

/-- Python str.strip whitespace set, restricted to the ASCII whitespace
characters. -/
def isPySpace (c : Char) : Bool :=
  c = ' ' || c = '\t' || c = '\n' || c = '\r' || c = '\x0b' || c = '\x0c'

/-- Leading-whitespace removal, the first half of Python str.strip. -/
def dropLead (l : List Char) : List Char := l.dropWhile isPySpace

/-- Python str.strip on a list of characters. -/
def pyStripL (l : List Char) : List Char :=
  ((dropLead l).reverse.dropWhile isPySpace).reverse

/-- Python str.strip. -/
def pyStrip (s : String) : String := String.mk (pyStripL s.data)

/-- Convert carriage-return and CRLF line terminators to a bare newline,
the first pass of the splitlines model. -/
def normNl : List Char → List Char
  | [] => []
  | ['\r'] => ['\n']
  | '\r' :: '\n' :: r2 => '\n' :: normNl r2
  | '\r' :: c :: r => '\n' :: normNl (c :: r)
  | c :: r => c :: normNl r

/-- Folding step splitting a newline-terminated character list into lines,
with Python splitlines semantics (a trailing terminator produces no trailing
empty line). -/
def slStep (c : Char) (acc : List (List Char)) : List (List Char) :=
  if c = '\n' then [] :: acc
  else
    match acc with
    | [] => [[c]]
    | a :: as => (c :: a) :: as

/-- Python str.splitlines on a list of characters (modeling the \n, \r\n and
\r terminators the script can encounter). -/
def splitNlL (l : List Char) : List (List Char) := (normNl l).foldr slStep []

/-- Python str.splitlines. -/
def pySplitlines (s : String) : List String := (splitNlL s.data).map String.mk

/-- Python "\n".join on a list of character lists. -/
def joinNLL : List (List Char) → List Char
  | [] => []
  | [a] => a
  | a :: rest => a ++ '\n' :: joinNLL rest

/-- Python "\n".join. -/
def pyJoinNL (ls : List String) : String := String.mk (joinNLL (ls.map String.data))

/-- Boolean list-prefix test. -/
def startsWithL : List Char → List Char → Bool
  | [], _ => true
  | _ :: _, [] => false
  | p :: ps, c :: cs => p = c && startsWithL ps cs

/-- Python substring membership (the in operator on str) over lists. -/
def containsSubL (needle : List Char) : List Char → Bool
  | [] => startsWithL needle []
  | c :: cs => startsWithL needle (c :: cs) || containsSubL needle cs

/-- Python substring membership: containsSub hay needle means needle in hay. -/
def containsSub (hay needle : String) : Bool := containsSubL needle.data hay.data

/-- Python str.isdigit restricted to ASCII digits. -/
def pyIsDigitStr (s : String) : Bool := !s.data.isEmpty && s.data.all Char.isDigit

/-- Python line.upper().startswith("WEBVTT"), upper modeled on ASCII. -/
def startsWithWebvtt (l : String) : Bool :=
  startsWithL "WEBVTT".data (l.data.map Char.toUpper)

/-- Python line.startswith("#"). -/
def startsWithHash (l : String) : Bool := startsWithL "#".data l.data

/-- Python text.replace("\n", " ") followed by .strip(), the per-segment
cleaning applied by the script. -/
def cleanSeg (s : String) : String :=
  String.mk (pyStripL (s.data.map (fun c => if c = '\n' then ' ' else c)))

/- ---------------------------------------------------------------------
   Model of urllib.parse.urlsplit / parse_qs (the fragment exercised by
   extract_video_id: scheme/netloc/path/query splitting, the hostname
   property, and query-string decoding restricted to ASCII percent
   escapes). -/

/-- Split fields produced by urllib.parse.urlsplit. -/
structure UrlSplitResult where
  scheme : List Char
  netloc : List Char
  path : List Char
  query : List Char
  fragment : List Char

/-- Characters urlsplit removes anywhere in the URL. -/
def isUnsafeUrlChar (c : Char) : Bool := c = '\t' || c = '\r' || c = '\n'

/-- Characters urlsplit strips from both ends (C0 controls and space). -/
def isC0OrSpace (c : Char) : Bool := c.toNat ≤ 32

/-- Valid characters of a URL scheme. -/
def isSchemeChar (c : Char) : Bool :=
  c.isAlpha || c.isDigit || c = '+' || c = '-' || c = '.'

/-- Split off a leading scheme, as urlsplit does. -/
def splitScheme (l : List Char) : List Char × List Char :=
  match l.findIdx? (fun c => c = ':') with
  | some i =>
    if 0 < i then
      match l.head? with
      | some c0 =>
        if c0.isAlpha && (l.take i).all isSchemeChar then
          ((l.take i).map Char.toLower, l.drop (i + 1))
        else ([], l)
      | none => ([], l)
    else ([], l)
  | none => ([], l)

/-- Split at the first occurrence of a delimiter character, dropping the
delimiter; the second component is empty when the delimiter is absent. -/
def splitFirstOn (ch : Char) (l : List Char) : List Char × List Char :=
  match l.dropWhile (fun c => c ≠ ch) with
  | [] => (l, [])
  | _ :: r => (l.takeWhile (fun c => c ≠ ch), r)

/-- Strip C0 controls and spaces from both ends, as modern urlsplit does. -/
def pyDropEndsC0 (l : List Char) : List Char :=
  ((l.dropWhile isC0OrSpace).reverse.dropWhile isC0OrSpace).reverse

/-- Model of urllib.parse.urlsplit restricted to the fields the script
reads. -/
def pyUrlsplit (url : List Char) : UrlSplitResult :=
  let u0 := pyDropEndsC0 (url.filter (fun c => !isUnsafeUrlChar c))
  let (scheme, u1) := splitScheme u0
  let (netloc, u2) :=
    match u1 with
    | '/' :: '/' :: r =>
      (r.takeWhile (fun c => c ≠ '/' && c ≠ '?' && c ≠ '#'),
       r.dropWhile (fun c => c ≠ '/' && c ≠ '?' && c ≠ '#'))
    | _ => ([], u1)
  let (u3, fragment) := splitFirstOn '#' u2
  let (path, query) := splitFirstOn '?' u3
  ⟨scheme, netloc, path, query, fragment⟩

/-- Netloc portion after the last userinfo separator, as in the hostname
property of urlsplit results. -/
def afterLastAt (l : List Char) : List Char :=
  if l.contains '@' then (l.reverse.takeWhile (fun c => c ≠ '@')).reverse else l

/-- Model of the hostname property of a urlsplit result (bracketed IPv6
hosts are outside the modeled fragment). -/
def urlHostname (netloc : List Char) : Option (List Char) :=
  let hostinfo := afterLastAt netloc
  let host := hostinfo.takeWhile (fun c => c ≠ ':')
  if host = [] then none else some (host.map Char.toLower)

/-- Split a character list on every occurrence of a separator, keeping empty
pieces, with Python str.split semantics. -/
def splitOnChar (ch : Char) (l : List Char) : List (List Char) :=
  l.foldr
    (fun c acc =>
      if c = ch then [] :: acc
      else
        match acc with
        | [] => [[c]]
        | a :: as => (c :: a) :: as)
    [[]]

/-- Hexadecimal digit value. -/
def hexVal (c : Char) : Option Nat :=
  if c.isDigit then some (c.toNat - 48)
  else if 'a' ≤ c && c ≤ 'f' then some (c.toNat - 87)
  else if 'A' ≤ c && c ≤ 'F' then some (c.toNat - 55)
  else none

/-- Model of urllib.parse.unquote restricted to ASCII percent escapes;
invalid escapes are left in place, as in the reference implementation. -/
def unquoteL : List Char → List Char
  | [] => []
  | '%' :: a :: b :: r =>
    match hexVal a, hexVal b with
    | some ha, some hb => Char.ofNat (16 * ha + hb) :: unquoteL r
    | _, _ => '%' :: unquoteL (a :: b :: r)
  | c :: r => c :: unquoteL r

/-- Python value.replace("+", " ") applied before unquoting. -/
def plusToSpace (l : List Char) : List Char :=
  l.map (fun c => if c = '+' then ' ' else c)

/-- Model of urllib.parse.parse_qsl with default options: pairs without an
equals sign or with an empty value are skipped. -/
def parse_qsl (qs : List Char) : List (String × String) :=
  (splitOnChar '&' qs).filterMap (fun nv =>
    if nv = [] then none
    else
      match nv.dropWhile (fun c => c ≠ '=') with
      | [] => none
      | _ :: value =>
        if value = [] then none
        else
          some (String.mk (unquoteL (plusToSpace (nv.takeWhile (fun c => c ≠ '=')))),
                String.mk (unquoteL (plusToSpace value))))

/-- Insert a query-string binding, appending the value to an existing key
or adding a new key at the end, as parse_qs builds its dict. -/
def qsInsert : List (String × List String) → String → String → List (String × List String)
  | [], k, v => [(k, [v])]
  | (k0, vs) :: rest, k, v =>
    if k0 = k then (k0, vs ++ [v]) :: rest else (k0, vs) :: qsInsert rest k v

/-- Model of urllib.parse.parse_qs. -/
def parse_qs (qs : List Char) : List (String × List String) :=
  (parse_qsl qs).foldl (fun d kv => qsInsert d kv.1 kv.2) []

/-- Identifier-shape test of extract_video_id: every character alphanumeric,
a hyphen or an underscore (isalnum modeled on ASCII). -/
def shapeOk (l : List Char) : Bool :=
  l.all (fun c => c.isAlphanum || c = '-' || c = '_')

/-- Model of extract_video_id from scripts/extract_transcripts.py; a raised
ValueError is an error result carrying the message. -/
def extract_video_id (raw : String) : Except String String :=
  let r := pyStripL raw.data
  if r = [] then .error "empty video id/URL provided"
  else if shapeOk r ∧ 10 ≤ r.length ∧ r.length < 20 then .ok (String.mk r)
  else
    let u := pyUrlsplit r
    match urlHostname u.netloc with
    | some h =>
      if h = "youtu.be".data then
        let vid := u.path.dropWhile (fun c => c = '/')
        if vid = [] then
          .error (String.mk ("unable to determine video id from short URL: ".data ++ r))
        else .ok (String.mk vid)
      else if containsSubL "youtube".data h then
        match (parse_qs u.query).lookup "v" with
        | some (v :: _) => .ok v
        | _ => .error (String.mk ("Unrecognised YouTube video URL or id: ".data ++ r))
      else .error (String.mk ("Unrecognised YouTube video URL or id: ".data ++ r))
    | none => .error (String.mk ("Unrecognised YouTube video URL or id: ".data ++ r))

/- ---------------------------------------------------------------------
   Model of the Python exceptions the script can raise or propagate. -/

/-- Python exceptions observable in the script: the two script-defined
classes, and the standard exceptions that can escape (json.JSONDecodeError,
ValueError from the resolver, AttributeError and TypeError from normalizing
unexpectedly-shaped JSON). -/
inductive PyErr
  | notAvailable (msg : String)
  | downloadError (msg : String)
  | jsonDecodeError (msg : String)
  | valueError (msg : String)
  | attributeError (msg : String)
  | typeError (msg : String)
deriving DecidableEq

/-- isinstance(e, TranscriptDownloadError): true for the script-defined
hierarchy (TranscriptNotAvailableError is a subclass). -/
def pyErrIsTDE : PyErr → Bool
  | .notAvailable _ => true
  | .downloadError _ => true
  | _ => false

/-- isinstance(e, TranscriptNotAvailableError). -/
def pyErrIsTNA : PyErr → Bool
  | .notAvailable _ => true
  | _ => false

/-- str(e): the message the exception carries. -/
def pyErrMsg : PyErr → String
  | .notAvailable m => m
  | .downloadError m => m
  | .jsonDecodeError m => m
  | .valueError m => m
  | .attributeError m => m
  | .typeError m => m

/-- type(e).__name__ for the modeled exceptions. -/
def pyErrTypeName : PyErr → String
  | .notAvailable _ => "TranscriptNotAvailableError"
  | .downloadError _ => "TranscriptDownloadError"
  | .jsonDecodeError _ => "JSONDecodeError"
  | .valueError _ => "ValueError"
  | .attributeError _ => "AttributeError"
  | .typeError _ => "TypeError"

/-- Parse-level exceptions: the unclassified errors that malformed or
unexpectedly-shaped JSON can raise through a strategy. -/
def parseLevel : PyErr → Bool
  | .jsonDecodeError _ => true
  | .attributeError _ => true
  | .typeError _ => true
  | _ => false

/- ---------------------------------------------------------------------
   Model of json.loads over the JSON subset the script exchanges. -/

/-- JSON values (numeric values are truncated to their integer part; the
script never reads a numeric field). -/
inductive JVal
  | null
  | bool (b : Bool)
  | num (n : Int)
  | str (s : String)
  | arr (xs : List JVal)
  | obj (kvs : List (String × JVal))

/-- Opening brace character. -/
def lbraceC : Char := Char.ofNat 123

/-- Closing brace character. -/
def rbraceC : Char := Char.ofNat 125

/-- JSON whitespace accepted between tokens. -/
def jsonWs (c : Char) : Bool := c = ' ' || c = '\t' || c = '\n' || c = '\r'

/-- Skip JSON whitespace. -/
def skipWs (l : List Char) : List Char := l.dropWhile jsonWs

/-- Parse the body of a JSON string after the opening quote, accumulating
characters; supports the simple escapes. -/
def jStrGo : List Char → List Char → Except String (String × List Char)
  | [], _ => .error "Unterminated string"
  | '"' :: r, acc => .ok (String.mk acc.reverse, r)
  | '\\' :: e :: r, acc =>
    if e = '"' then jStrGo r ('"' :: acc)
    else if e = '\\' then jStrGo r ('\\' :: acc)
    else if e = '/' then jStrGo r ('/' :: acc)
    else if e = 'n' then jStrGo r ('\n' :: acc)
    else if e = 't' then jStrGo r ('\t' :: acc)
    else if e = 'r' then jStrGo r ('\r' :: acc)
    else if e = 'b' then jStrGo r ('\x08' :: acc)
    else if e = 'f' then jStrGo r ('\x0c' :: acc)
    else .error "Invalid escape"
  | ['\\'], _ => .error "Unterminated string"
  | c :: r, acc => jStrGo r (c :: acc)

/-- Parse a JSON number, returning its integer part. -/
def jNum (l : List Char) : Except String (JVal × List Char) :=
  let (neg, l1) := match l with | '-' :: r => (true, r) | _ => (false, l)
  let ds := l1.takeWhile Char.isDigit
  if ds = [] then .error "Expecting value"
  else
    let rest0 := l1.dropWhile Char.isDigit
    let rest1 :=
      match rest0 with
      | '.' :: r => r.dropWhile Char.isDigit
      | _ => rest0
    let rest2 :=
      match rest1 with
      | 'e' :: r =>
        (match r with
         | '+' :: r2 => r2.dropWhile Char.isDigit
         | '-' :: r2 => r2.dropWhile Char.isDigit
         | _ => r.dropWhile Char.isDigit)
      | 'E' :: r =>
        (match r with
         | '+' :: r2 => r2.dropWhile Char.isDigit
         | '-' :: r2 => r2.dropWhile Char.isDigit
         | _ => r.dropWhile Char.isDigit)
      | _ => rest1
    let n : Int := ds.foldl (fun a c => a * 10 + ((c.toNat : Int) - 48)) 0
    .ok (.num (if neg then -n else n), rest2)

/-- Insert an object member, overwriting the value of an existing key in
place, as building a Python dict from parsed pairs does. -/
def objInsert : List (String × JVal) → String → JVal → List (String × JVal)
  | [], k, v => [(k, v)]
  | (k0, v0) :: rest, k, v =>
    if k0 = k then (k0, v) :: rest else (k0, v0) :: objInsert rest k v

mutual

/-- Parse one JSON value; the fuel argument only bounds recursion depth and
is chosen large enough in jsonLoads. -/
def jVal : Nat → List Char → Except String (JVal × List Char)
  | 0, _ => .error "Expecting value"
  | Nat.succ f, l =>
    match skipWs l with
    | [] => .error "Expecting value"
    | c :: r =>
      if c = '"' then
        match jStrGo r [] with
        | .ok (s, r2) => .ok (.str s, r2)
        | .error m => .error m
      else if c = lbraceC then
        match skipWs r with
        | c2 :: r2 =>
          if c2 = rbraceC then .ok (.obj [], r2) else jObjPairs f (c2 :: r2) []
        | [] => .error "Expecting property name enclosed in double quotes"
      else if c = '[' then
        match skipWs r with
        | ']' :: r2 => .ok (.arr [], r2)
        | l2 => jArrElems f l2 []
      else if c = 't' then
        match r with
        | 'r' :: 'u' :: 'e' :: r2 => .ok (.bool true, r2)
        | _ => .error "Expecting value"
      else if c = 'f' then
        match r with
        | 'a' :: 'l' :: 's' :: 'e' :: r2 => .ok (.bool false, r2)
        | _ => .error "Expecting value"
      else if c = 'n' then
        match r with
        | 'u' :: 'l' :: 'l' :: r2 => .ok (.null, r2)
        | _ => .error "Expecting value"
      else jNum (c :: r)

/-- Parse the members of a JSON object after the opening brace, given that
the object is not empty. -/
def jObjPairs : Nat → List Char → List (String × JVal) → Except String (JVal × List Char)
  | 0, _, _ => .error "Expecting property name enclosed in double quotes"
  | Nat.succ f, l, acc =>
    match skipWs l with
    | '"' :: r =>
      (match jStrGo r [] with
       | .error m => .error m
       | .ok (k, r2) =>
         match skipWs r2 with
         | ':' :: r3 =>
           (match jVal f r3 with
            | .error m => .error m
            | .ok (v, r4) =>
              let acc2 := objInsert acc k v
              match skipWs r4 with
              | ',' :: r5 => jObjPairs f r5 acc2
              | c :: r5 =>
                if c = rbraceC then .ok (.obj acc2, r5)
                else .error "Expecting comma delimiter"
              | [] => .error "Expecting comma delimiter")
         | _ => .error "Expecting colon delimiter")
    | _ => .error "Expecting property name enclosed in double quotes"

/-- Parse the elements of a JSON array after the opening bracket, given that
the array is not empty. -/
def jArrElems : Nat → List Char → List JVal → Except String (JVal × List Char)
  | 0, _, _ => .error "Expecting value"
  | Nat.succ f, l, acc =>
    match jVal f l with
    | .error m => .error m
    | .ok (v, r) =>
      match skipWs r with
      | ',' :: r2 => jArrElems f r2 (acc ++ [v])
      | ']' :: r2 => .ok (.arr (acc ++ [v]), r2)
      | _ => .error "Expecting comma delimiter"

end

/-- Model of json.loads; a parse failure is a json.JSONDecodeError. -/
def jsonLoads (payload : String) : Except PyErr JVal :=
  match jVal (2 * payload.data.length + 4) payload.data with
  | .error m => .error (.jsonDecodeError m)
  | .ok (v, rest) =>
    if skipWs rest = [] then .ok v else .error (.jsonDecodeError "Extra data")

/- ---------------------------------------------------------------------
   Model of the JSON-value operations the script performs (dict.get, the
   or-default idiom, iteration, str methods on values). -/

/-- Python truthiness of a JSON value. -/
def jTruthy : JVal → Bool
  | .null => false
  | .bool b => b
  | .num n => n ≠ 0
  | .str s => s ≠ ""
  | .arr xs => !xs.isEmpty
  | .obj kvs => !kvs.isEmpty

/-- Python x or y on JSON values. -/
def pyOr (a b : JVal) : JVal := if jTruthy a then a else b

/-- Python value.get(key, default): dict lookup with default, raising
AttributeError on non-dict values. -/
def jGet : JVal → String → JVal → Except PyErr JVal
  | .obj kvs, k, d =>
    .ok (match kvs.lookup k with
         | some v => v
         | none => d)
  | _, _, _ => .error (.attributeError "object has no attribute get")

/-- Python iteration over a JSON value as a list of values: lists yield
elements, strings yield their characters, dicts yield their keys, and
other values raise TypeError. -/
def pyIterList : JVal → Except PyErr (List JVal)
  | .arr xs => .ok xs
  | .str s => .ok (s.data.map (fun c => JVal.str (String.mk [c])))
  | .obj kvs => .ok (kvs.map (fun kv => JVal.str kv.1))
  | _ => .error (.typeError "object is not iterable")

/-- Coerce a JSON value on which a str method is called, raising
AttributeError for non-strings, as value.replace would. -/
def asStr : JVal → Except PyErr String
  | .str s => .ok s
  | _ => .error (.attributeError "object has no attribute replace")

/-- Collect the cleaned non-empty texts of one event segment list:
(segment.get("utf8") or "").replace("\n", " ").strip(), keeping non-empty
results, as in the json3 loops of the script. -/
def segsTexts : List JVal → Except PyErr (List String)
  | [] => .ok []
  | s :: ss =>
    match jGet s "utf8" JVal.null with
    | .error e => .error e
    | .ok u =>
      match asStr (pyOr u (JVal.str "")) with
      | .error e => .error e
      | .ok t =>
        match segsTexts ss with
        | .error e => .error e
        | .ok rest => .ok (if cleanSeg t = "" then rest else cleanSeg t :: rest)

/-- Collect the cleaned segment texts of all events in order:
for event in events: for segment in (event.get("segs", []) or []). -/
def eventsTexts : List JVal → Except PyErr (List String)
  | [] => .ok []
  | e :: es =>
    match jGet e "segs" (JVal.arr []) with
    | .error err => .error err
    | .ok segsV =>
      match pyIterList (pyOr segsV (JVal.arr [])) with
      | .error err => .error err
      | .ok segs =>
        match segsTexts segs with
        | .error err => .error err
        | .ok ts =>
          match eventsTexts es with
          | .error err => .error err
          | .ok rest => .ok (ts ++ rest)

/-- Shared normalization of a decoded json3 caption document, mirroring the
loop duplicated at lines 113-122 and 193-201 of the script: iterate
data.get("events", []), collect cleaned segment texts, join with newlines,
strip, and turn an empty result into None. -/
def json3NormalizeData (data : JVal) : Except PyErr (Option String) :=
  match jGet data "events" (JVal.arr []) with
  | .error err => .error err
  | .ok eventsV =>
    match pyIterList eventsV with
    | .error err => .error err
    | .ok events =>
      match eventsTexts events with
      | .error err => .error err
      | .ok lines =>
        let transcript := pyStrip (pyJoinNL lines)
        .ok (if transcript = "" then none else some transcript)

/-- Line filter of the subtitle branch of _parse_caption_payload: blank
lines, time-range lines, numeric cue indices (srt only) and WEBVTT headers
are dropped. -/
def keepLine (extension : String) (l : String) : Bool :=
  !(l = "") && !(containsSub l "-->") &&
    !(extension = "srt" && pyIsDigitStr l) && !(startsWithWebvtt l)

/-- Stripped, filtered lines of a line-oriented subtitle payload. -/
def subtitleLines (payload extension : String) : List String :=
  ((pySplitlines payload).map pyStrip).filter (keepLine extension)

/-- Model of _parse_caption_payload: convert a caption payload into plain
text; None models the Python None return. -/
def parse_caption_payload (payload extension : String) : Except PyErr (Option String) :=
  if pyStrip payload = "" then .ok none
  else if extension = "json3" then
    match jsonLoads payload with
    | .error e => .error e
    | .ok data => json3NormalizeData data
  else
    let transcript := pyStrip (pyJoinNL (subtitleLines payload extension))
    .ok (if transcript = "" then none else some transcript)

/- ---------------------------------------------------------------------
   Model of the network, the external collaborators and the strategies. -/

/-- Result of urlopen on one URL: a decoded payload, an HTTPError with a
status code, or a URLError-style transport failure with a message. -/
inductive HttpResult
  | ok (payload : String)
  | httpError (code : Nat)
  | urlError (msg : String)

/-- One caption track descriptor in a yt-dlp info dict. -/
structure Track where
  url : Option String
  ext : Option String

/-- The portion of a yt-dlp info dict the script reads: per-language track
lists under the subtitles and automatic_captions stores. -/
structure InfoDict where
  subtitles : String → List Track
  automatic_captions : String → List Track

/-- Outcome of YouTubeTranscriptApi.get_transcript: a segment list (each
segment with an optional text field) or one of the typed exceptions. -/
inductive YtApiResult
  | segments (segs : List (Option String))
  | noTranscriptFound (msg : String)
  | transcriptsDisabled (msg : String)
  | videoUnavailable (msg : String)
  | otherError (msg : String)

/-- Deterministic model of everything outside the script: the HTTP
responses by URL, availability and behavior of the two optional
libraries. -/
structure World where
  net : String → HttpResult
  ytApiInstalled : Bool
  ytApi : String → YtApiResult
  ytDlpInstalled : Bool
  ytDlpInfo : String → InfoDict

/-- The fixed language priority list. -/
def LANGUAGE_CANDIDATES : List String := ["en", "en-US", "en-GB"]

/-- The timedtext request URL built by _download_json_transcript. -/
def timedtextUrl (videoId language : String) : String :=
  "https://www.youtube.com/api/timedtext?lang=" ++ language ++ "&v=" ++ videoId ++ "&fmt=json3"

/-- Model of _download_json_transcript: fetch one language track in json3
format; None models an unavailable track (HTTP 403/404 or blank payload). -/
def download_json_transcript (net : String → HttpResult) (videoId language : String) :
    Except PyErr (Option String) :=
  match net (timedtextUrl videoId language) with
  | .httpError code =>
    if code = 404 ∨ code = 403 then .ok none
    else
      .error (.downloadError
        ("HTTP error " ++ toString code ++ " while downloading transcript for " ++ videoId))
  | .urlError m =>
    .error (.downloadError
      ("Network error while downloading transcript for " ++ videoId ++ ": " ++ m))
  | .ok payload =>
    if pyStrip payload = "" then .ok none
    else
      match jsonLoads payload with
      | .error e => .error e
      | .ok data => json3NormalizeData data

/-- Language loop of _fetch_with_timedtext. -/
def ttGo (net : String → HttpResult) (videoId : String) : List String → Except PyErr String
  | [] => .error (.notAvailable "Transcript not available in languages (en, en-US, en-GB)")
  | language :: rest =>
    match download_json_transcript net videoId language with
    | .error e => .error e
    | .ok none => ttGo net videoId rest
    | .ok (some t) => if t = "" then ttGo net videoId rest else .ok t

/-- Model of _fetch_with_timedtext. -/
def fetch_with_timedtext (net : String → HttpResult) (videoId : String) : Except PyErr String :=
  ttGo net videoId LANGUAGE_CANDIDATES

/-- Model of _fetch_with_youtube_transcript_api. -/
def fetch_with_youtube_transcript_api (w : World) (videoId : String) : Except PyErr String :=
  if !w.ytApiInstalled then .error (.downloadError "youtube-transcript-api is not installed")
  else
    match w.ytApi videoId with
    | .noTranscriptFound m => .error (.notAvailable m)
    | .transcriptsDisabled m => .error (.notAvailable m)
    | .videoUnavailable m => .error (.downloadError ("Video unavailable: " ++ m))
    | .otherError m =>
      .error (.downloadError ("youtube-transcript-api failed for " ++ videoId ++ ": " ++ m))
    | .segments segs =>
      let lines := segs.filterMap (fun s? =>
        let t := cleanSeg (s?.getD "")
        if t = "" then none else some t)
      let transcript := pyStrip (pyJoinNL lines)
      if transcript = "" then
        .error (.notAvailable "youtube-transcript-api returned an empty transcript")
      else .ok transcript

/-- One downloadable caption track discovered via yt-dlp. -/
structure CaptionCandidate where
  url : String
  extension : String

/-- Model of _iter_caption_candidates: tracks per language across the two
stores, skipping tracks without a url or format extension. -/
def iter_caption_candidates (info : InfoDict) : List CaptionCandidate :=
  LANGUAGE_CANDIDATES.flatMap (fun language =>
    [info.subtitles language, info.automatic_captions language].flatMap (fun tracks =>
      tracks.filterMap (fun track =>
        match track.url, track.ext with
        | some u, some e => if u ≠ "" ∧ e ≠ "" then some ⟨u, e⟩ else none
        | _, _ => none)))

/-- Candidate loop of _fetch_with_yt_dlp. -/
def ydGo (net : String → HttpResult) (videoId : String) :
    List CaptionCandidate → Except PyErr String
  | [] => .error (.notAvailable "yt-dlp did not return usable caption tracks")
  | c :: cs =>
    match net c.url with
    | .httpError code =>
      if code = 403 ∨ code = 404 then ydGo net videoId cs
      else
        .error (.downloadError
          ("HTTP error " ++ toString code ++ " downloading yt-dlp captions for " ++ videoId))
    | .urlError m =>
      .error (.downloadError
        ("Network error downloading yt-dlp captions for " ++ videoId ++ ": " ++ m))
    | .ok payload =>
      match parse_caption_payload payload c.extension with
      | .error e => .error e
      | .ok none => ydGo net videoId cs
      | .ok (some t) => if t = "" then ydGo net videoId cs else .ok t

/-- Model of _fetch_with_yt_dlp. -/
def fetch_with_yt_dlp (w : World) (videoId : String) : Except PyErr String :=
  if !w.ytDlpInstalled then .error (.downloadError "yt-dlp is not installed")
  else ydGo w.net videoId (iter_caption_candidates (w.ytDlpInfo videoId))

/-- Strategy loop of fetch_transcript: results in order, with the
last_error accumulator; classified errors are recorded and the loop
continues, any other exception propagates at once.  The final branch
mirrors the raise of the unknown-reasons download error. -/
def fetchLoop : List (Except PyErr String) → Option PyErr → Except PyErr String
  | [], last =>
    (match last with
     | some e => if pyErrIsTNA e then .error e else .error (.downloadError (pyErrMsg e))
     | none => .error (.downloadError "Unable to fetch transcript for unknown reasons"))
  | r :: rs, _last =>
    match r with
    | .ok t => .ok t
    | .error e => if pyErrIsTDE e then fetchLoop rs (some e) else .error e

/-- Variant of fetchLoop that differs only in the final unknown-reasons
branch; agreement with fetchLoop on a given input shows that branch is not
taken there. -/
def fetchLoopAlt : List (Except PyErr String) → Option PyErr → Except PyErr String
  | [], last =>
    (match last with
     | some e => if pyErrIsTNA e then .error e else .error (.downloadError (pyErrMsg e))
     | none => .error (.valueError "unreachable fallback branch"))
  | r :: rs, _last =>
    match r with
    | .ok t => .ok t
    | .error e => if pyErrIsTDE e then fetchLoopAlt rs (some e) else .error e

/-- Model of fetch_transcript: the three strategies in fixed order. -/
def fetch_transcript (w : World) (videoId : String) : Except PyErr String :=
  fetchLoop
    [fetch_with_timedtext w.net videoId,
     fetch_with_youtube_transcript_api w videoId,
     fetch_with_yt_dlp w videoId]
    none

/- ---------------------------------------------------------------------
   Model of the batch driver. -/

/-- One artifact written into the output directory: a transcript text file
or a structured error record with the keys video_id, error_type, message. -/
inductive Artifact
  | transcript (videoId text : String)
  | errorJson (videoId errorType message : String)
deriving DecidableEq

/-- Model of run over the lazily-resolved identifier stream of
read_video_ids: per line, skip blank and comment lines, resolve the
identifier (a ValueError aborts the run, it is caught nowhere), fetch, and
record exactly one artifact; an exception outside TranscriptDownloadError
aborts the whole batch. -/
def runLines (w : World) : List String → Except PyErr (List Artifact)
  | [] => .ok []
  | line :: rest =>
    let s := pyStrip line
    if s = "" then runLines w rest
    else if startsWithHash s then runLines w rest
    else
      match extract_video_id s with
      | .error m => .error (.valueError m)
      | .ok vid =>
        match fetch_transcript w vid with
        | .ok t =>
          (match runLines w rest with
           | .ok arts => .ok (.transcript vid t :: arts)
           | .error e => .error e)
        | .error e =>
          if pyErrIsTDE e then
            match runLines w rest with
            | .ok arts => .ok (.errorJson vid (pyErrTypeName e) (pyErrMsg e) :: arts)
            | .error e2 => .error e2
          else .error e

/-- Model of run on the text of the input file. -/
def run (w : World) (inputText : String) : Except PyErr (List Artifact) :=
  runLines w (pySplitlines inputText)

/-- The identifiers a run processes, in input order: non-blank, non-comment
lines that resolve. -/
def processedIds (lines : List String) : List String :=
  lines.filterMap (fun line =>
    let s := pyStrip line
    if s = "" then none
    else if startsWithHash s then none
    else (extract_video_id s).toOption)

/-- The single artifact the batch driver records for an identifier whose
chain outcome is a success or a classified failure. -/
def artifactFor (w : World) (vid : String) : Artifact :=
  match fetch_transcript w vid with
  | .ok t => .transcript vid t
  | .error e => .errorJson vid (pyErrTypeName e) (pyErrMsg e)

/-- Identifier an artifact is keyed by. -/
def artifactVideoId : Artifact → String
  | .transcript v _ => v
  | .errorJson v _ _ => v

/-- Whether an artifact is a transcript text file. -/
def artifactIsTranscript : Artifact → Bool
  | .transcript _ _ => true
  | .errorJson _ _ _ => false

deriving instance DecidableEq for Except

/- ---------------------------------------------------------------------
   Auxiliary definitions used only to state and check the claims. -/

/-- The first character, if any, is not whitespace. -/
def headOkL (l : List Char) : Bool :=
  match l.head? with
  | none => true
  | some c => !isPySpace c

/-- The last character, if any, is not whitespace. -/
def lastOkL (l : List Char) : Bool :=
  match l.getLast? with
  | none => true
  | some c => !isPySpace c

/-- A character list is empty or carries no whitespace at either end. -/
def noEdgeSpace (l : List Char) : Bool := headOkL l && lastOkL l

/-- Encode one caption segment as the JSON object the json3 format uses:
an optional utf8 text field. -/
def encodeSeg : Option String → JVal
  | some t => .obj [("utf8", .str t)]
  | none => .obj []

/-- Encode a structured caption document: a list of events, each a list of
optional segment texts. -/
def encodeEvents (evs : List (List (Option String))) : JVal :=
  .obj [("events", .arr (evs.map (fun segs => .obj [("segs", .arr (segs.map encodeSeg))])))]

/-- The cleaned non-empty segment texts of a structured caption document,
in event order. -/
def collectSegTexts (evs : List (List (Option String))) : List String :=
  evs.flatMap (fun segs => segs.filterMap (fun s? =>
    match s? with
    | some t => if cleanSeg t = "" then none else some (cleanSeg t)
    | none => none))

/-- An info dict with no caption tracks at all. -/
def infoEmpty : InfoDict := ⟨fun _ => [], fun _ => []⟩

/-- Network where every URL answers 404. -/
def net404 : String → HttpResult := fun _ => .httpError 404

/-- Network where every URL answers 500. -/
def net500 : String → HttpResult := fun _ => .httpError 500

/-- Network where every URL fails at the transport level. -/
def netUrlErr : String → HttpResult := fun _ => .urlError "timed out"

/-- Network where every URL answers a blank payload. -/
def netBlank : String → HttpResult := fun _ => .ok "   "

/-- World in which every strategy reports not-available. -/
def wAllNA : World := ⟨net404, true, fun _ => .noTranscriptFound "nope", true, fun _ => infoEmpty⟩

/-- World in which the last strategy fails with a download error. -/
def wLastDL : World :=
  ⟨net404, true, fun _ => .videoUnavailable "gone", false, fun _ => infoEmpty⟩

/-- World whose timedtext endpoint serves a malformed JSON payload
(an unclosed object) for every URL. -/
def wBadJson1 : World :=
  ⟨fun _ => .ok "\x7b", true, fun _ => .noTranscriptFound "x", true, fun _ => infoEmpty⟩

/-- World whose timedtext endpoint serves a malformed JSON payload
(an unclosed array) for every URL. -/
def wBadJson2 : World :=
  ⟨fun _ => .ok "[", true, fun _ => .noTranscriptFound "x", true, fun _ => infoEmpty⟩

/-- World whose timedtext endpoint serves a malformed JSON payload
(a bare letter) for every URL. -/
def wBadJson3 : World :=
  ⟨fun _ => .ok "x", true, fun _ => .noTranscriptFound "x", true, fun _ => infoEmpty⟩

/-- Network serving a well-formed json3 payload for one identifier in
English and 404 for everything else. -/
def netMixed : String → HttpResult := fun u =>
  if u = timedtextUrl "okayvideo1" "en" then
    .ok "\x7b\"events\":[\x7b\"segs\":[\x7b\"utf8\":\"Hello\"\x7d]\x7d]\x7d"
  else .httpError 404

/-- World in which okayvideo1 succeeds via timedtext and every other
identifier fails as not-available. -/
def wMixed : World :=
  ⟨netMixed, true, fun _ => .noTranscriptFound "nope", true, fun _ => infoEmpty⟩

/- ---------------------------------------------------------------------
   Helper lemmas about the string models. -/

theorem dropWhile_eq_self_of_all {p : Char → Bool} {l : List Char}
    (h : ∀ c ∈ l, p c = false) : l.dropWhile p = l := by
  cases l with
  | nil => rfl
  | cons c t =>
    rw [List.dropWhile_cons, h c (by simp)]
    simp

theorem pyStripL_eq_self_of_all {l : List Char}
    (h : ∀ c ∈ l, isPySpace c = false) : pyStripL l = l := by
  unfold pyStripL dropLead
  rw [dropWhile_eq_self_of_all h, dropWhile_eq_self_of_all (by simpa using h),
    List.reverse_reverse]

theorem dropWhile_head_false {p : Char → Bool} :
    ∀ {l : List Char} {c : Char} {t : List Char}, l.dropWhile p = c :: t → p c = false := by
  intro l
  induction l with
  | nil => intro c t h; simp at h
  | cons a l ih =>
    intro c t h
    rw [List.dropWhile_cons] at h
    by_cases hp : p a = true
    · rw [if_pos hp] at h
      exact ih h
    · rw [if_neg hp] at h
      cases h
      simpa using hp

theorem headOkL_reverse (l : List Char) : headOkL l.reverse = lastOkL l := by
  unfold headOkL lastOkL
  rw [List.head?_reverse]

theorem lastOkL_reverse (l : List Char) : lastOkL l.reverse = headOkL l := by
  unfold headOkL lastOkL
  rw [List.getLast?_reverse]

theorem headOkL_dropWhile (l : List Char) : headOkL (l.dropWhile isPySpace) = true := by
  unfold headOkL
  cases h : l.dropWhile isPySpace with
  | nil => simp
  | cons c t => simp [dropWhile_head_false h]

theorem dropWhile_eq_self_of_headOk {l : List Char} (h : headOkL l = true) :
    l.dropWhile isPySpace = l := by
  cases l with
  | nil => rfl
  | cons c t =>
    unfold headOkL at h
    simp only [List.head?_cons] at h
    rw [List.dropWhile_cons, if_neg]
    simpa using h

theorem lastOkL_dropWhile_of_ne_nil {l : List Char}
    (h : l.dropWhile isPySpace ≠ []) :
    lastOkL (l.dropWhile isPySpace) = lastOkL l := by
  unfold lastOkL
  conv_rhs => rw [← List.takeWhile_append_dropWhile isPySpace l]
  rw [List.getLast?_append_of_ne_nil _ h]

theorem noEdgeSpace_pyStripL (l : List Char) : noEdgeSpace (pyStripL l) = true := by
  unfold noEdgeSpace pyStripL dropLead
  rw [headOkL_reverse, lastOkL_reverse, headOkL_dropWhile, Bool.and_true]
  by_cases h : List.dropWhile isPySpace (List.dropWhile isPySpace l).reverse = []
  · rw [h]
    rfl
  · rw [lastOkL_dropWhile_of_ne_nil h, lastOkL_reverse]
    exact headOkL_dropWhile l

theorem pyStripL_eq_self_of_noEdge {l : List Char} (h : noEdgeSpace l = true) :
    pyStripL l = l := by
  unfold noEdgeSpace at h
  rw [Bool.and_eq_true] at h
  unfold pyStripL dropLead
  rw [dropWhile_eq_self_of_headOk h.1]
  rw [dropWhile_eq_self_of_headOk (by rw [headOkL_reverse]; exact h.2)]
  exact List.reverse_reverse l

theorem pyStripL_idem (l : List Char) : pyStripL (pyStripL l) = pyStripL l :=
  pyStripL_eq_self_of_noEdge (noEdgeSpace_pyStripL l)

theorem mem_pyStripL {c : Char} {l : List Char} (h : c ∈ pyStripL l) : c ∈ l := by
  unfold pyStripL dropLead at h
  rw [List.mem_reverse] at h
  have h2 := (List.dropWhile_sublist isPySpace).subset h
  rw [List.mem_reverse] at h2
  exact (List.dropWhile_sublist isPySpace).subset h2

theorem joinNLL_cons_cons (a b : List Char) (rest : List (List Char)) :
    joinNLL (a :: b :: rest) = a ++ '\n' :: joinNLL (b :: rest) := rfl

theorem joinNLL_ne_nil : ∀ {ls : List (List Char)}, ls ≠ [] →
    (∀ l ∈ ls, l ≠ []) → joinNLL ls ≠ [] := by
  intro ls
  match ls with
  | [] => intro h; exact absurd rfl h
  | [a] =>
    intro _ hall
    simpa [joinNLL] using hall a (by simp)
  | a :: b :: rest =>
    intro _ _
    rw [joinNLL_cons_cons]
    intro hc
    rcases List.append_eq_nil.mp hc with ⟨_, h2⟩
    exact List.cons_ne_nil _ _ h2

theorem joinNLL_head? {a : List Char} (rest : List (List Char)) (ha : a ≠ []) :
    (joinNLL (a :: rest)).head? = a.head? := by
  match rest with
  | [] => rfl
  | b :: rest2 =>
    rw [joinNLL_cons_cons, List.head?_append]
    cases a with
    | nil => exact absurd rfl ha
    | cons c t => rfl

theorem lastOkL_joinNLL : ∀ {ls : List (List Char)}, ls ≠ [] →
    (∀ l ∈ ls, l ≠ [] ∧ lastOkL l = true) → lastOkL (joinNLL ls) = true := by
  intro ls
  induction ls with
  | nil => intro h; exact absurd rfl h
  | cons a rest ih =>
    intro _ hall
    match rest with
    | [] => exact (hall a (by simp)).2
    | b :: rest2 =>
      rw [joinNLL_cons_cons]
      have hJ : joinNLL (b :: rest2) ≠ [] :=
        joinNLL_ne_nil (by simp) (fun l hl => (hall l (by simp [hl])).1)
      have step : lastOkL (a ++ '\n' :: joinNLL (b :: rest2)) =
          lastOkL (joinNLL (b :: rest2)) := by
        unfold lastOkL
        have : ('\n' :: joinNLL (b :: rest2)) = ['\n'] ++ joinNLL (b :: rest2) := rfl
        rw [this, List.getLast?_append_of_ne_nil _ (by simp [hJ]),
          List.getLast?_append_of_ne_nil _ hJ]
      rw [step]
      exact ih (by simp) (fun l hl => hall l (by simp [hl]))

theorem noEdgeSpace_joinNLL {ls : List (List Char)} (hne : ls ≠ [])
    (hall : ∀ l ∈ ls, l ≠ [] ∧ noEdgeSpace l = true) :
    noEdgeSpace (joinNLL ls) = true := by
  unfold noEdgeSpace
  rw [Bool.and_eq_true]
  constructor
  · match ls, hne with
    | a :: rest, _ =>
      have ha := hall a (by simp)
      unfold noEdgeSpace at ha
      unfold headOkL
      rw [joinNLL_head? rest ha.1]
      have := (Bool.and_eq_true _ _).mp ha.2
      unfold headOkL at this
      exact this.1
  · exact lastOkL_joinNLL hne (fun l hl => ⟨(hall l hl).1,
      ((Bool.and_eq_true _ _).mp (hall l hl).2).2⟩)

theorem pyStripL_joinNLL {ls : List (List Char)} (hne : ls ≠ [])
    (hall : ∀ l ∈ ls, l ≠ [] ∧ noEdgeSpace l = true) :
    pyStripL (joinNLL ls) = joinNLL ls :=
  pyStripL_eq_self_of_noEdge (noEdgeSpace_joinNLL hne hall)


theorem normNl_cons_ne_cr {c : Char} (t : List Char) (hc : c ≠ '\r') :
    normNl (c :: t) = c :: normNl t := by
  cases t with
  | nil => simp [normNl, hc]
  | cons d t2 => simp [normNl, hc]

theorem normNl_eq_self : ∀ {l : List Char}, (∀ c ∈ l, c ≠ '\r') → normNl l = l := by
  intro l
  induction l with
  | nil => intro _; rfl
  | cons c t ih =>
    intro h
    rw [normNl_cons_ne_cr t (h c (by simp)), ih (fun x hx => h x (by simp [hx]))]

theorem normNl_no_cr : ∀ (l : List Char), '\r' ∉ normNl l := by
  intro l
  induction l using normNl.induct with
  | case1 => simp [normNl]
  | case2 => simp [normNl]
  | case3 r2 ih => simpa [normNl] using ih
  | case4 c r hc ih =>
    rw [show normNl ('\r' :: c :: r) = '\n' :: normNl (c :: r) by simp [normNl, hc]]
    simpa using ih
  | case5 c r h1 h2 h3 ih =>
    have hc : c ≠ '\r' := by
      intro he
      cases r with
      | nil => exact h1 he rfl
      | cons d t => exact h3 d t he rfl
    rw [normNl_cons_ne_cr r hc]
    intro hmem
    rcases List.mem_cons.mp hmem with h | h
    · exact hc h.symm
    · exact ih h

theorem slStep_nl {c : Char} (acc : List (List Char)) (hc : c = '\n') :
    slStep c acc = [] :: acc := by
  unfold slStep
  rw [if_pos hc]

theorem slStep_nil {c : Char} (hc : ¬c = '\n') : slStep c [] = [[c]] := by
  unfold slStep
  rw [if_neg hc]

theorem slStep_cons {c : Char} (g : List Char) (gs : List (List Char)) (hc : ¬c = '\n') :
    slStep c (g :: gs) = (c :: g) :: gs := by
  unfold slStep
  rw [if_neg hc]

theorem mem_foldr_slStep : ∀ (l : List Char), (∀ c ∈ l, c ≠ '\r') →
    ∀ x ∈ l.foldr slStep [], '\n' ∉ x ∧ '\r' ∉ x := by
  intro l
  induction l with
  | nil => intro _ x hx; simp at hx
  | cons c t ih =>
    intro h x hx
    rw [List.foldr_cons] at hx
    by_cases hc : c = '\n'
    · rw [slStep_nl _ hc] at hx
      rcases List.mem_cons.mp hx with h1 | h1
      · subst h1; simp
      · exact ih (fun y hy => h y (by simp [hy])) x h1
    · cases hA : t.foldr slStep [] with
      | nil =>
        rw [hA, slStep_nil hc] at hx
        simp only [List.mem_singleton] at hx
        subst hx
        constructor
        · simp only [List.mem_singleton]
          exact fun h2 => hc h2.symm
        · simp only [List.mem_singleton]
          exact fun h2 => h c (by simp) h2.symm
      | cons g gs =>
        rw [hA, slStep_cons g gs hc] at hx
        rcases List.mem_cons.mp hx with h1 | h1
        · subst h1
          have hg := ih (fun y hy => h y (by simp [hy])) g (by rw [hA]; simp)
          constructor
          · simp only [List.mem_cons]
            rintro (h2 | h2)
            · exact hc h2.symm
            · exact hg.1 h2
          · simp only [List.mem_cons]
            rintro (h2 | h2)
            · exact h c (by simp) h2.symm
            · exact hg.2 h2
        · exact ih (fun y hy => h y (by simp [hy])) x (by rw [hA]; simp [h1])

theorem mem_splitNlL {x : List Char} {l : List Char} (hx : x ∈ splitNlL l) :
    '\n' ∉ x ∧ '\r' ∉ x :=
  mem_foldr_slStep (normNl l) (fun _ hc he => normNl_no_cr l (he ▸ hc)) x hx

theorem foldr_slStep_line (a : List Char) (g : List Char) (gs : List (List Char))
    (h : ∀ c ∈ a, c ≠ '\n') : a.foldr slStep (g :: gs) = (a ++ g) :: gs := by
  induction a with
  | nil => rfl
  | cons c t ih =>
    rw [List.foldr_cons, ih (fun y hy => h y (by simp [hy])),
      slStep_cons _ _ (by simpa using h c (by simp))]
    rfl

theorem foldr_slStep_single : ∀ (a : List Char), (∀ c ∈ a, c ≠ '\n') → a ≠ [] →
    a.foldr slStep [] = [a] := by
  intro a
  induction a with
  | nil => intro _ hne; exact absurd rfl hne
  | cons c t ih =>
    intro h _
    rw [List.foldr_cons]
    cases t with
    | nil => exact slStep_nil (by simpa using h c (by simp))
    | cons d t2 =>
      rw [ih (fun y hy => h y (by simp [hy])) (by simp),
        slStep_cons _ _ (by simpa using h c (by simp))]

theorem mem_joinNLL : ∀ {x : Char} {ls : List (List Char)}, x ∈ joinNLL ls →
    x = '\n' ∨ ∃ l ∈ ls, x ∈ l := by
  intro c ls
  induction ls with
  | nil => intro h; simp [joinNLL] at h
  | cons a rest ih =>
    intro h
    match rest with
    | [] =>
      right
      exact ⟨a, by simp, h⟩
    | b :: rest2 =>
      rw [joinNLL_cons_cons] at h
      rcases List.mem_append.mp h with h1 | h1
      · right; exact ⟨a, by simp, h1⟩
      · rcases List.mem_cons.mp h1 with h2 | h2
        · left; exact h2
        · rcases ih h2 with h3 | ⟨l, hl, hcl⟩
          · left; exact h3
          · right; exact ⟨l, by simp [hl], hcl⟩

theorem splitNlL_joinNLL : ∀ {ls : List (List Char)}, ls ≠ [] →
    (∀ l ∈ ls, l ≠ [] ∧ (∀ c ∈ l, c ≠ '\n' ∧ c ≠ '\r')) →
    splitNlL (joinNLL ls) = ls := by
  have foldstep : ∀ (ls : List (List Char)), ls ≠ [] →
      (∀ l ∈ ls, l ≠ [] ∧ (∀ c ∈ l, c ≠ '\n')) →
      (joinNLL ls).foldr slStep [] = ls := by
    intro ls
    induction ls with
    | nil => intro h; exact absurd rfl h
    | cons a rest ih =>
      intro _ hall
      match rest with
      | [] => exact foldr_slStep_single a (hall a (by simp)).2 (hall a (by simp)).1
      | b :: rest2 =>
        rw [joinNLL_cons_cons, List.foldr_append, List.foldr_cons,
          ih (by simp) (fun l hl => hall l (by simp [hl])), slStep_nl _ rfl,
          foldr_slStep_line a [] _ (hall a (by simp)).2, List.append_nil]
  intro ls hne hall
  unfold splitNlL
  rw [normNl_eq_self (fun c hc => by
    rcases mem_joinNLL hc with h1 | ⟨l, hl, hcl⟩
    · subst h1; decide
    · exact ((hall l hl).2 c hcl).2)]
  exact foldstep ls hne (fun l hl => ⟨(hall l hl).1, fun c hc => ((hall l hl).2 c hc).1⟩)

theorem string_mk_data (s : String) : String.mk s.data = s := rfl

theorem shapeChar_not_space {c : Char} (h : (c.isAlphanum || c = '-' || c = '_') = true) :
    isPySpace c = false := by
  by_contra hne
  have hsp : isPySpace c = true := by revert hne; cases isPySpace c <;> simp
  unfold isPySpace at hsp
  simp only [Bool.or_eq_true, decide_eq_true_eq] at hsp
  rcases hsp with ((((h1 | h1) | h1) | h1) | h1) | h1 <;>
    (subst h1; exact absurd h (by decide))

theorem shapeOk_eq_false_of_colon {l : List Char} (h : ':' ∈ l) : shapeOk l = false := by
  by_contra hne
  have hall : shapeOk l = true := by revert hne; cases shapeOk l <;> simp
  unfold shapeOk at hall
  rw [List.all_eq_true] at hall
  exact absurd (hall ':' h) (by decide)

theorem youtube_host_ne_short {host : List Char}
    (hc : containsSubL "youtube".data host = true) : host ≠ "youtu.be".data := by
  intro he
  subst he
  exact absurd hc (by decide)

/-- C8: a string of 10 to 19 alphanumeric, hyphen or underscore characters is
returned unchanged by the identifier resolver (isalnum modeled on ASCII). -/
theorem extract_video_id_shape_passthrough (s : String)
    (hshape : ∀ c ∈ s.data, (c.isAlphanum || c = '-' || c = '_') = true)
    (hlen1 : 10 ≤ s.data.length) (hlen2 : s.data.length < 20) :
    extract_video_id s = .ok s := by
  have hstrip : pyStripL s.data = s.data :=
    pyStripL_eq_self_of_all (fun c hc => shapeChar_not_space (hshape c hc))
  have hne : s.data ≠ [] := by
    intro he
    rw [he] at hlen1
    simp at hlen1
  have hsh : shapeOk s.data = true := by
    unfold shapeOk
    rw [List.all_eq_true]
    exact hshape
  unfold extract_video_id
  simp only [hstrip]
  rw [if_neg hne, if_pos ⟨hsh, hlen1, hlen2⟩]

/-- C8 witness. -/
theorem extract_video_id_shape_passthrough_witness :
    extract_video_id "abc-def_12" = .ok "abc-def_12" :=
  extract_video_id_shape_passthrough "abc-def_12" (by decide) (by decide) (by decide)

/-- C9: for a well-formed full URL (hypotheses: stripping is the identity, a
colon is present so the string is not identifier-shaped, the parsed host
contains the youtube substring), the resolver returns exactly the first value
of the v query parameter, and fails with the unrecognised-input error when
the parameter is absent. -/
theorem extract_video_id_url_v_param (raw : String) (host : List Char)
    (hstrip : pyStripL raw.data = raw.data)
    (hcolon : ':' ∈ raw.data)
    (hhost : urlHostname (pyUrlsplit raw.data).netloc = some host)
    (hyt : containsSubL "youtube".data host = true) :
    (∀ vid rest, (parse_qs (pyUrlsplit raw.data).query).lookup "v" = some (vid :: rest) →
      extract_video_id raw = .ok vid) ∧
    ((parse_qs (pyUrlsplit raw.data).query).lookup "v" = none →
      extract_video_id raw =
        .error (String.mk ("Unrecognised YouTube video URL or id: ".data ++ raw.data))) := by
  have hne : raw.data ≠ [] := by
    intro he
    rw [he] at hcolon
    simp at hcolon
  have hshape : shapeOk raw.data = false := shapeOk_eq_false_of_colon hcolon
  have hcond : ¬(shapeOk raw.data ∧ 10 ≤ raw.data.length ∧ raw.data.length < 20) := by
    intro hcc
    rw [hshape] at hcc
    exact absurd hcc.1 (by simp)
  constructor
  · intro vid rest hv
    unfold extract_video_id
    rw [hstrip, if_neg hne, if_neg hcond]
    simp only [hhost]
    rw [if_neg (youtube_host_ne_short hyt), if_pos hyt]
    simp only [hv]
  · intro hv
    unfold extract_video_id
    rw [hstrip, if_neg hne, if_neg hcond]
    simp only [hhost]
    rw [if_neg (youtube_host_ne_short hyt), if_pos hyt]
    simp only [hv]

/-- C9 witness. -/
theorem extract_video_id_url_v_param_witness :
    extract_video_id "https://www.youtube.com/watch?v=dQw4w9WgXcQ" = .ok "dQw4w9WgXcQ" :=
  (extract_video_id_url_v_param "https://www.youtube.com/watch?v=dQw4w9WgXcQ"
      "www.youtube.com".data rfl (by decide) rfl (by decide)).1
    "dQw4w9WgXcQ" [] rfl

/-- C5: in the official-caption-endpoint strategy, a 403 or 404 for a
language is non-fatal (None, the loop continues with the next language), any
other HTTP or transport error raises a download failure that aborts the whole
strategy, and a successful but blank payload is treated as not available for
that language. -/
theorem timedtext_language_handling (net : String → HttpResult)
    (vid lang m payload : String) (code : Nat) (rest : List String) :
    ((code = 403 ∨ code = 404) → net (timedtextUrl vid lang) = .httpError code →
      download_json_transcript net vid lang = .ok none) ∧
    (¬(code = 403 ∨ code = 404) → net (timedtextUrl vid lang) = .httpError code →
      download_json_transcript net vid lang =
        .error (.downloadError
          ("HTTP error " ++ toString code ++ " while downloading transcript for " ++ vid))) ∧
    (net (timedtextUrl vid lang) = .urlError m →
      download_json_transcript net vid lang =
        .error (.downloadError
          ("Network error while downloading transcript for " ++ vid ++ ": " ++ m))) ∧
    (net (timedtextUrl vid lang) = .ok payload → pyStrip payload = "" →
      download_json_transcript net vid lang = .ok none) ∧
    (download_json_transcript net vid lang = .ok none →
      ttGo net vid (lang :: rest) = ttGo net vid rest) ∧
    (∀ e, download_json_transcript net vid lang = .error e →
      ttGo net vid (lang :: rest) = .error e) := by
  refine ⟨?_, ?_, ?_, ?_, ?_, ?_⟩
  · intro h hnet
    simp only [download_json_transcript, hnet]
    rw [if_pos (h.elim Or.inr Or.inl)]
  · intro h hnet
    simp only [download_json_transcript, hnet]
    rw [if_neg (fun hc => h (hc.elim Or.inr Or.inl))]
  · intro hnet
    simp only [download_json_transcript, hnet]
  · intro hnet hblank
    simp only [download_json_transcript, hnet]
    rw [if_pos hblank]
  · intro h
    simp only [ttGo, h]
  · intro e h
    simp only [ttGo, h]

/-- C5 witness. -/
theorem timedtext_language_handling_witness :
    download_json_transcript net404 "abcdefghij" "en" = .ok none ∧
    download_json_transcript net500 "abcdefghij" "en" =
      .error (.downloadError "HTTP error 500 while downloading transcript for abcdefghij") ∧
    download_json_transcript netUrlErr "abcdefghij" "en" =
      .error (.downloadError
        "Network error while downloading transcript for abcdefghij: timed out") ∧
    download_json_transcript netBlank "abcdefghij" "en" = .ok none ∧
    ttGo net404 "abcdefghij" ["en", "en-US"] = ttGo net404 "abcdefghij" ["en-US"] ∧
    ttGo net500 "abcdefghij" ["en"] =
      .error (.downloadError "HTTP error 500 while downloading transcript for abcdefghij") :=
  ⟨(timedtext_language_handling net404 "abcdefghij" "en" "" "" 404 []).1 (Or.inr rfl) rfl,
   (timedtext_language_handling net500 "abcdefghij" "en" "" "" 500 []).2.1 (by decide) rfl,
   (timedtext_language_handling netUrlErr "abcdefghij" "en" "timed out" "" 0 []).2.2.1 rfl,
   (timedtext_language_handling netBlank "abcdefghij" "en" "" "   " 0 []).2.2.2.1 rfl rfl,
   (timedtext_language_handling net404 "abcdefghij" "en" "" "" 0 ["en-US"]).2.2.2.2.1 rfl,
   (timedtext_language_handling net500 "abcdefghij" "en" "" "" 0 ["en"]).2.2.2.2.2
     (.downloadError "HTTP error 500 while downloading transcript for abcdefghij") rfl⟩

theorem jGet_error {v : JVal} {k : String} {d : JVal} {e : PyErr}
    (h : jGet v k d = .error e) : parseLevel e = true := by
  cases v <;> simp [jGet] at h <;> simp [← h, parseLevel]

theorem pyIterList_error {v : JVal} {e : PyErr}
    (h : pyIterList v = .error e) : parseLevel e = true := by
  cases v <;> simp [pyIterList] at h <;> simp [← h, parseLevel]

theorem asStr_error {v : JVal} {e : PyErr}
    (h : asStr v = .error e) : parseLevel e = true := by
  cases v <;> simp [asStr] at h <;> simp [← h, parseLevel]

theorem segsTexts_error : ∀ {segs : List JVal} {e : PyErr},
    segsTexts segs = .error e → parseLevel e = true := by
  intro segs
  induction segs with
  | nil => intro e h; simp [segsTexts] at h
  | cons s ss ih =>
    intro e h
    unfold segsTexts at h
    split at h
    · rename_i e2 hg
      cases h
      exact jGet_error hg
    · rename_i u hg
      split at h
      · rename_i e2 ha
        cases h
        exact asStr_error ha
      · rename_i t ha
        split at h
        · rename_i e2 hs
          cases h
          exact ih hs
        · rename_i rest hs
          cases h

theorem eventsTexts_error : ∀ {events : List JVal} {e : PyErr},
    eventsTexts events = .error e → parseLevel e = true := by
  intro events
  induction events with
  | nil => intro e h; simp [eventsTexts] at h
  | cons ev es ih =>
    intro e h
    unfold eventsTexts at h
    split at h
    · rename_i e2 hg
      cases h
      exact jGet_error hg
    · rename_i segsV hg
      split at h
      · rename_i e2 hi
        cases h
        exact pyIterList_error hi
      · rename_i segs hi
        split at h
        · rename_i e2 hs
          cases h
          exact segsTexts_error hs
        · rename_i ts hs
          split at h
          · rename_i e2 hr
            cases h
            exact ih hr
          · rename_i rest hr
            cases h

theorem json3NormalizeData_error {data : JVal} {e : PyErr}
    (h : json3NormalizeData data = .error e) : parseLevel e = true := by
  unfold json3NormalizeData at h
  split at h
  · rename_i e2 hg
    cases h
    exact jGet_error hg
  · rename_i eventsV hg
    split at h
    · rename_i e2 hi
      cases h
      exact pyIterList_error hi
    · rename_i events hi
      split at h
      · rename_i e2 he
        cases h
        exact eventsTexts_error he
      · rename_i lines he
        simp at h

theorem jsonLoads_error {payload : String} {e : PyErr}
    (h : jsonLoads payload = .error e) : parseLevel e = true := by
  unfold jsonLoads at h
  split at h
  · rename_i m hj
    cases h
    rfl
  · rename_i v rest hj
    split at h
    · cases h
    · cases h
      rfl

theorem download_json_transcript_error {net : String → HttpResult}
    {vid lang : String} {e : PyErr}
    (h : download_json_transcript net vid lang = .error e) :
    (pyErrIsTDE e || parseLevel e) = true := by
  unfold download_json_transcript at h
  split at h
  · rename_i code
    split at h
    · cases h
    · cases h
      rfl
  · rename_i m
    cases h
    rfl
  · rename_i payload
    split at h
    · cases h
    · split at h
      · rename_i e2 hj
        cases h
        simp [jsonLoads_error hj]
      · rename_i data hj
        simp [json3NormalizeData_error h]

theorem ttGo_error {net : String → HttpResult} {vid : String} :
    ∀ {langs : List String} {e : PyErr},
    ttGo net vid langs = .error e → (pyErrIsTDE e || parseLevel e) = true := by
  intro langs
  induction langs with
  | nil =>
    intro e h
    unfold ttGo at h
    cases h
    rfl
  | cons lang rest ih =>
    intro e h
    unfold ttGo at h
    split at h
    · rename_i e2 hd
      cases h
      exact download_json_transcript_error hd
    · exact ih h
    · rename_i t hd
      split at h
      · exact ih h
      · cases h

theorem fetch_with_timedtext_error {net : String → HttpResult} {vid : String} {e : PyErr}
    (h : fetch_with_timedtext net vid = .error e) : (pyErrIsTDE e || parseLevel e) = true :=
  ttGo_error h

theorem fetch_with_youtube_transcript_api_error {w : World} {vid : String} {e : PyErr}
    (h : fetch_with_youtube_transcript_api w vid = .error e) :
    (pyErrIsTDE e || parseLevel e) = true := by
  unfold fetch_with_youtube_transcript_api at h
  split at h
  · cases h
    rfl
  · split at h
    · cases h; rfl
    · cases h; rfl
    · cases h; rfl
    · cases h; rfl
    · dsimp only at h
      split at h
      · cases h
        rfl
      · cases h

theorem parse_caption_payload_error {payload extension : String} {e : PyErr}
    (h : parse_caption_payload payload extension = .error e) : parseLevel e = true := by
  unfold parse_caption_payload at h
  split at h
  · cases h
  · split at h
    · split at h
      · rename_i e2 hj
        cases h
        exact jsonLoads_error hj
      · exact json3NormalizeData_error h
    · cases h

theorem ydGo_error {net : String → HttpResult} {vid : String} :
    ∀ {cs : List CaptionCandidate} {e : PyErr},
    ydGo net vid cs = .error e → (pyErrIsTDE e || parseLevel e) = true := by
  intro cs
  induction cs with
  | nil =>
    intro e h
    unfold ydGo at h
    cases h
    rfl
  | cons c rest ih =>
    intro e h
    unfold ydGo at h
    split at h
    · rename_i code
      split at h
      · exact ih h
      · cases h
        rfl
    · cases h
      rfl
    · rename_i payload
      split at h
      · rename_i e2 hp
        cases h
        simp [parse_caption_payload_error hp]
      · exact ih h
      · rename_i t hp
        split at h
        · exact ih h
        · cases h

theorem fetch_with_yt_dlp_error {w : World} {vid : String} {e : PyErr}
    (h : fetch_with_yt_dlp w vid = .error e) : (pyErrIsTDE e || parseLevel e) = true := by
  unfold fetch_with_yt_dlp at h
  split at h
  · cases h
    rfl
  · exact ydGo_error h

theorem fetchLoop_spec : ∀ (rs : List (Except PyErr String)) (last : Option PyErr),
    (∀ r ∈ rs, ∀ e, r = .error e → (pyErrIsTDE e || parseLevel e) = true) →
    (match last with
     | some e => pyErrIsTDE e = true
     | none => rs ≠ []) →
    fetchLoop rs last = fetchLoopAlt rs last ∧
    ((∃ t, fetchLoop rs last = .ok t) ∨
      (∃ e, fetchLoop rs last = .error e ∧ (pyErrIsTDE e || parseLevel e) = true)) := by
  intro rs
  induction rs with
  | nil =>
    intro last hall hlast
    match last with
    | none => exact absurd rfl hlast
    | some e =>
      have hred : fetchLoop [] (some e) =
          if pyErrIsTNA e = true then .error e
          else .error (.downloadError (pyErrMsg e)) := rfl
      constructor
      · rfl
      · right
        by_cases hna : pyErrIsTNA e = true
        · refine ⟨e, ?_, by simp [hlast]⟩
          rw [hred, if_pos hna]
        · refine ⟨.downloadError (pyErrMsg e), ?_, by simp [pyErrIsTDE]⟩
          rw [hred, if_neg hna]
  | cons r rest ih =>
    intro last hall _
    match r with
    | .ok t =>
      exact ⟨rfl, Or.inl ⟨t, rfl⟩⟩
    | .error e =>
      have hp := hall (.error e) (by simp) e rfl
      have hred : fetchLoop (Except.error e :: rest) last =
          if pyErrIsTDE e = true then fetchLoop rest (some e) else .error e := rfl
      have hredA : fetchLoopAlt (Except.error e :: rest) last =
          if pyErrIsTDE e = true then fetchLoopAlt rest (some e) else .error e := rfl
      by_cases hTDE : pyErrIsTDE e = true
      · have hrec := ih (some e) (fun r2 hr2 => hall r2 (by simp [hr2])) (by simp [hTDE])
        rw [hred, hredA, if_pos hTDE, if_pos hTDE]
        exact hrec
      · rw [hred, hredA, if_neg hTDE, if_neg hTDE]
        exact ⟨rfl, Or.inr ⟨e, rfl, hp⟩⟩

/-- C10 (amended): fetch_transcript either returns a transcript, raises a
classified error (not-available or download failure), or propagates an
unhandled parse-level error from malformed or unexpectedly-shaped JSON; in
every case it agrees with the variant whose final unknown-reasons branch is
replaced, so that branch is unreachable. -/
theorem fetch_transcript_no_unknown_fallback (w : World) (vid : String) :
    fetch_transcript w vid =
      fetchLoopAlt
        [fetch_with_timedtext w.net vid,
         fetch_with_youtube_transcript_api w vid,
         fetch_with_yt_dlp w vid] none ∧
    ((∃ t, fetch_transcript w vid = .ok t) ∨
      (∃ e, fetch_transcript w vid = .error e ∧ (pyErrIsTDE e || parseLevel e) = true)) := by
  have h := fetchLoop_spec
    [fetch_with_timedtext w.net vid,
     fetch_with_youtube_transcript_api w vid,
     fetch_with_yt_dlp w vid] none
    (by
      intro r hr e hre
      subst hre
      simp only [List.mem_cons, List.not_mem_nil, or_false] at hr
      rcases hr with hr | hr | hr
      · exact fetch_with_timedtext_error hr.symm
      · exact fetch_with_youtube_transcript_api_error hr.symm
      · exact fetch_with_yt_dlp_error hr.symm)
    (by simp)
  exact h

/-- C10 counterexample: with a malformed JSON payload from the caption
endpoint, fetch_transcript propagates an unclassified JSONDecodeError, so it
does not always return a transcript or raise a classified error. -/
theorem fetch_transcript_unclassified_counterexample :
    fetch_transcript wBadJson1 "abcdefghij" =
      .error (.jsonDecodeError "Expecting property name enclosed in double quotes") ∧
    pyErrIsTDE (.jsonDecodeError "Expecting property name enclosed in double quotes") = false :=
  ⟨rfl, rfl⟩

/-- C1: when all three strategies fail with not-available, fetch_transcript
raises a not-available classification (the message of the last strategy);
when all strategies fail with classified errors and the last error is a
download failure, it raises a download failure carrying the last error
message; in general the classification of the last error seen in iteration
order wins. -/
theorem chain_failure_classification (w : World) (vid : String) :
    (∀ m1 m2 m3,
      fetch_with_timedtext w.net vid = .error (.notAvailable m1) →
      fetch_with_youtube_transcript_api w vid = .error (.notAvailable m2) →
      fetch_with_yt_dlp w vid = .error (.notAvailable m3) →
      fetch_transcript w vid = .error (.notAvailable m3)) ∧
    (∀ e1 e2 m,
      fetch_with_timedtext w.net vid = .error e1 → pyErrIsTDE e1 = true →
      fetch_with_youtube_transcript_api w vid = .error e2 → pyErrIsTDE e2 = true →
      fetch_with_yt_dlp w vid = .error (.downloadError m) →
      fetch_transcript w vid = .error (.downloadError m)) ∧
    (∀ e1 e2 m,
      fetch_with_timedtext w.net vid = .error e1 → pyErrIsTDE e1 = true →
      fetch_with_youtube_transcript_api w vid = .error e2 → pyErrIsTDE e2 = true →
      fetch_with_yt_dlp w vid = .error (.notAvailable m) →
      fetch_transcript w vid = .error (.notAvailable m)) := by
  refine ⟨?_, ?_, ?_⟩
  · intro m1 m2 m3 h1 h2 h3
    unfold fetch_transcript
    rw [h1, h2, h3]
    rfl
  · intro e1 e2 m h1 htde1 h2 htde2 h3
    unfold fetch_transcript
    rw [h1, h2, h3]
    have hred : fetchLoop [Except.error e1, Except.error e2,
        Except.error (PyErr.downloadError m)] none =
        if pyErrIsTDE e1 = true then
          fetchLoop [Except.error e2, Except.error (PyErr.downloadError m)] (some e1)
        else .error e1 := rfl
    rw [hred, if_pos htde1]
    have hred2 : fetchLoop [Except.error e2, Except.error (PyErr.downloadError m)]
        (some e1) =
        if pyErrIsTDE e2 = true then
          fetchLoop [Except.error (PyErr.downloadError m)] (some e2)
        else .error e2 := rfl
    rw [hred2, if_pos htde2]
    rfl
  · intro e1 e2 m h1 htde1 h2 htde2 h3
    unfold fetch_transcript
    rw [h1, h2, h3]
    have hred : fetchLoop [Except.error e1, Except.error e2,
        Except.error (PyErr.notAvailable m)] none =
        if pyErrIsTDE e1 = true then
          fetchLoop [Except.error e2, Except.error (PyErr.notAvailable m)] (some e1)
        else .error e1 := rfl
    rw [hred, if_pos htde1]
    have hred2 : fetchLoop [Except.error e2, Except.error (PyErr.notAvailable m)]
        (some e1) =
        if pyErrIsTDE e2 = true then
          fetchLoop [Except.error (PyErr.notAvailable m)] (some e2)
        else .error e2 := rfl
    rw [hred2, if_pos htde2]
    rfl

/-- C1 witness. -/
theorem chain_failure_classification_witness :
    fetch_transcript wAllNA "abcdefghij" =
      .error (.notAvailable "yt-dlp did not return usable caption tracks") ∧
    fetch_transcript wLastDL "abcdefghij" =
      .error (.downloadError "yt-dlp is not installed") :=
  ⟨(chain_failure_classification wAllNA "abcdefghij").1
      "Transcript not available in languages (en, en-US, en-GB)" "nope"
      "yt-dlp did not return usable caption tracks" rfl rfl rfl,
   (chain_failure_classification wLastDL "abcdefghij").2.1
      (.notAvailable "Transcript not available in languages (en, en-US, en-GB)")
      (.downloadError "Video unavailable: gone") "yt-dlp is not installed"
      rfl rfl rfl rfl rfl⟩

/-- C2 (amended): a parse-level error from a malformed caption payload is
caught neither by fetch_transcript nor by the batch driver: no error
artifact is recorded for the identifier and the whole batch aborts with
that error, instead of continuing. -/
theorem run_parse_error_aborts (w : World) (line : String) (rest : List String)
    (vid : String) (e : PyErr)
    (hne : pyStrip line ≠ "")
    (hnc : startsWithHash (pyStrip line) = false)
    (hres : extract_video_id (pyStrip line) = .ok vid)
    (hfetch : fetch_transcript w vid = .error e)
    (hucl : pyErrIsTDE e = false) :
    runLines w (line :: rest) = .error e := by
  unfold runLines
  rw [if_neg hne, if_neg (by simp [hnc])]
  simp only [hres, hfetch]
  rw [if_neg (by simp [hucl])]

/-- C2 counterexample: with a malformed caption payload for the first
identifier, the batch records no artifact and aborts instead of recording a
download-failure artifact and continuing to the second identifier. -/
theorem run_parse_error_counterexample :
    runLines wBadJson2 ["abcdefghij", "zyxwvutsrq"] =
      .error (.jsonDecodeError "Expecting value") := rfl

/-- C2 witness. -/
theorem run_parse_error_aborts_witness :
    runLines wBadJson3 ["abcdefghij"] = .error (.jsonDecodeError "Expecting value") :=
  run_parse_error_aborts wBadJson3 "abcdefghij" [] "abcdefghij"
    (.jsonDecodeError "Expecting value") (by decide) rfl rfl rfl rfl

/-- C3: when the chain fails with a classified error for the first of two
resolvable identifiers and succeeds for the second, the batch produces the
error artifact and the transcript artifact, in input order. -/
theorem run_batch_resilience (w : World) (l1 l2 vid1 vid2 t : String) (e : PyErr)
    (h1a : pyStrip l1 ≠ "") (h1b : startsWithHash (pyStrip l1) = false)
    (h1c : extract_video_id (pyStrip l1) = .ok vid1)
    (h1d : fetch_transcript w vid1 = .error e) (h1e : pyErrIsTDE e = true)
    (h2a : pyStrip l2 ≠ "") (h2b : startsWithHash (pyStrip l2) = false)
    (h2c : extract_video_id (pyStrip l2) = .ok vid2)
    (h2d : fetch_transcript w vid2 = .ok t) :
    runLines w [l1, l2] =
      .ok [.errorJson vid1 (pyErrTypeName e) (pyErrMsg e), .transcript vid2 t] := by
  have hinner : runLines w [l2] = .ok [.transcript vid2 t] := by
    unfold runLines
    rw [if_neg h2a, if_neg (by simp [h2b])]
    simp only [h2c, h2d]
    rfl
  unfold runLines
  rw [if_neg h1a, if_neg (by simp [h1b])]
  simp only [h1c, h1d]
  rw [if_pos h1e]
  simp only [hinner]

/-- C3 witness. -/
theorem run_batch_resilience_witness :
    runLines wMixed ["badvideo12", "okayvideo1"] =
      .ok [.errorJson "badvideo12" "TranscriptNotAvailableError"
             "yt-dlp did not return usable caption tracks",
           .transcript "okayvideo1" "Hello"] :=
  run_batch_resilience wMixed "badvideo12" "okayvideo1" "badvideo12" "okayvideo1" "Hello"
    (.notAvailable "yt-dlp did not return usable caption tracks")
    (by decide) rfl rfl rfl rfl (by decide) rfl rfl rfl

theorem artifactVideoId_artifactFor (w : World) (v : String) :
    artifactVideoId (artifactFor w v) = v := by
  unfold artifactFor
  cases fetch_transcript w v <;> rfl

theorem processedIds_cons (line : String) (rest : List String) :
    processedIds (line :: rest) =
      (if pyStrip line = "" then processedIds rest
       else if startsWithHash (pyStrip line) = true then processedIds rest
       else
         match extract_video_id (pyStrip line) with
         | .ok vid => vid :: processedIds rest
         | .error _ => processedIds rest) := by
  unfold processedIds
  rw [List.filterMap_cons]
  by_cases hb : pyStrip line = ""
  · simp only [hb, if_pos rfl]
    rfl
  · rw [if_neg hb]
    by_cases hh : startsWithHash (pyStrip line) = true
    · simp only [if_neg hb, hh, if_pos rfl]
      rfl
    · simp only [if_neg hb, if_neg hh]
      cases hres : extract_video_id (pyStrip line) <;> rfl

theorem runLines_ok_shape : ∀ (w : World) (ls : List String) (as : List Artifact),
    runLines w ls = .ok as → as = (processedIds ls).map (artifactFor w) := by
  intro w ls
  induction ls with
  | nil =>
    intro as h
    unfold runLines at h
    cases h
    rfl
  | cons line rest ih =>
    intro as h
    unfold runLines at h
    rw [processedIds_cons]
    by_cases hb : pyStrip line = ""
    · rw [if_pos hb] at h
      rw [if_pos hb]
      exact ih as h
    · rw [if_neg hb] at h
      rw [if_neg hb]
      by_cases hh : startsWithHash (pyStrip line) = true
      · rw [if_pos hh] at h
        rw [if_pos hh]
        exact ih as h
      · rw [if_neg hh] at h
        rw [if_neg hh]
        cases hres : extract_video_id (pyStrip line) with
        | error m =>
          simp only [hres] at h
          cases h
        | ok vid =>
          simp only [hres] at h ⊢
          cases hfetch : fetch_transcript w vid with
          | ok t =>
            rw [hfetch] at h
            have h2 : (match runLines w rest with
                | Except.ok arts => Except.ok (Artifact.transcript vid t :: arts)
                | Except.error e => Except.error e) = Except.ok as := h
            cases hrec : runLines w rest with
            | ok arts2 =>
              rw [hrec] at h2
              cases h2
              rw [List.map_cons]
              have hart : artifactFor w vid = .transcript vid t := by
                unfold artifactFor
                rw [hfetch]
              rw [hart, ih arts2 hrec]
            | error e2 =>
              rw [hrec] at h2
              cases h2
          | error e =>
            rw [hfetch] at h
            have h2 : (if pyErrIsTDE e = true then
                  (match runLines w rest with
                   | Except.ok arts =>
                     Except.ok (Artifact.errorJson vid (pyErrTypeName e) (pyErrMsg e) :: arts)
                   | Except.error e2 => Except.error e2)
                else Except.error e) = Except.ok as := h
            by_cases hTDE : pyErrIsTDE e = true
            · rw [if_pos hTDE] at h2
              cases hrec : runLines w rest with
              | ok arts2 =>
                rw [hrec] at h2
                cases h2
                rw [List.map_cons]
                have hart : artifactFor w vid =
                    .errorJson vid (pyErrTypeName e) (pyErrMsg e) := by
                  unfold artifactFor
                  rw [hfetch]
                rw [hart, ih arts2 hrec]
              | error e2 =>
                rw [hrec] at h2
                cases h2
            · rw [if_neg hTDE] at h2
              cases h2

/-- C4 (amended, restricted to runs that complete): when the batch driver
finishes, it has produced exactly one artifact per resolved identifier
occurrence, in order, keyed by that identifier, and the artifact kind for a
given identifier is unique, so a transcript and an error record are never
both produced; a run aborted by an unclassified error (see the
counterexample) produces no artifact for the aborting identifier. -/
theorem run_exactly_one_artifact (w : World) (lines : List String)
    (arts : List Artifact) (h : runLines w lines = .ok arts) :
    arts = (processedIds lines).map (artifactFor w) ∧
    arts.map artifactVideoId = processedIds lines ∧
    (∀ a ∈ arts, ∀ b ∈ arts, artifactVideoId a = artifactVideoId b →
      artifactIsTranscript a = artifactIsTranscript b) := by
  have h1 := runLines_ok_shape w lines arts h
  refine ⟨h1, ?_, ?_⟩
  · rw [h1, List.map_map]
    have : artifactVideoId ∘ artifactFor w = id := by
      funext v
      exact artifactVideoId_artifactFor w v
    rw [this, List.map_id]
  · intro a ha b hb hid
    rw [h1] at ha hb
    rcases List.mem_map.mp ha with ⟨va, _, hva⟩
    rcases List.mem_map.mp hb with ⟨vb, _, hvb⟩
    have : va = vb := by
      rw [← artifactVideoId_artifactFor w va, ← artifactVideoId_artifactFor w vb, hva, hvb, hid]
    rw [← hva, ← hvb, this]

/-- C4 witness. -/
theorem run_exactly_one_artifact_witness :
    [Artifact.transcript "okayvideo1" "Hello"] =
      (processedIds ["okayvideo1"]).map (artifactFor wMixed) :=
  (run_exactly_one_artifact wMixed ["okayvideo1"] [.transcript "okayvideo1" "Hello"] rfl).1

/-- C4 counterexample: a resolved identifier whose chain raises a
parse-level error gets neither a transcript artifact nor an error artifact:
the run aborts with the unclassified error instead. -/
theorem run_neither_artifact_counterexample :
    runLines wBadJson1 ["qrstuvwxyz"] =
      .error (.jsonDecodeError "Expecting property name enclosed in double quotes") := rfl

theorem pyOr_arr (xs : List JVal) : pyOr (JVal.arr xs) (JVal.arr []) = JVal.arr xs := by
  unfold pyOr jTruthy
  cases xs <;> simp

theorem segsTexts_encode : ∀ (segs : List (Option String)),
    segsTexts (segs.map encodeSeg) =
      .ok (segs.filterMap (fun s? =>
        match s? with
        | some t => if cleanSeg t = "" then none else some (cleanSeg t)
        | none => none)) := by
  intro segs
  induction segs with
  | nil => rfl
  | cons s? ss ih =>
    rw [List.map_cons]
    unfold segsTexts
    rw [ih]
    cases s? with
    | none => simp [encodeSeg, jGet, pyOr, jTruthy, asStr, List.filterMap_cons, cleanSeg, pyStripL, dropLead]
    | some t =>
      by_cases ht : t = ""
      · subst ht
        simp [encodeSeg, jGet, pyOr, jTruthy, asStr, List.filterMap_cons, cleanSeg, pyStripL,
          dropLead]
      · by_cases hc : cleanSeg t = ""
        · simp [encodeSeg, jGet, pyOr, jTruthy, asStr, ht, hc, List.filterMap_cons]
        · simp [encodeSeg, jGet, pyOr, jTruthy, asStr, ht, hc, List.filterMap_cons]

theorem eventsTexts_encode : ∀ (evs : List (List (Option String))),
    eventsTexts (evs.map (fun segs => JVal.obj [("segs", JVal.arr (segs.map encodeSeg))])) =
      .ok (collectSegTexts evs) := by
  intro evs
  induction evs with
  | nil => rfl
  | cons segs rest ih =>
    rw [List.map_cons]
    unfold eventsTexts
    rw [show jGet (JVal.obj [("segs", JVal.arr (segs.map encodeSeg))]) "segs" (JVal.arr []) =
        .ok (JVal.arr (segs.map encodeSeg)) from rfl]
    rw [ih]
    simp only [pyOr_arr]
    rw [show pyIterList (JVal.arr (segs.map encodeSeg)) = .ok (segs.map encodeSeg) from rfl]
    show (match segsTexts (List.map encodeSeg segs) with
      | Except.error err => Except.error err
      | Except.ok ts => Except.ok (ts ++ collectSegTexts rest)) =
      Except.ok (collectSegTexts (segs :: rest))
    rw [segsTexts_encode]
    rfl

theorem string_data_ne_nil {s : String} (h : s ≠ "") : s.data ≠ [] := by
  intro he
  exact h (String.ext he)

theorem collectSegTexts_mem {l : String} {evs : List (List (Option String))}
    (h : l ∈ collectSegTexts evs) : l ≠ "" ∧ noEdgeSpace l.data = true := by
  unfold collectSegTexts at h
  rcases List.mem_flatMap.mp h with ⟨segs, _, hseg⟩
  rcases List.mem_filterMap.mp hseg with ⟨s?, _, hf⟩
  cases s? with
  | none => simp at hf
  | some t =>
    by_cases hc : cleanSeg t = ""
    · simp [hc] at hf
    · simp only [hc, if_false, if_neg hc] at hf
      cases hf
      exact ⟨hc, noEdgeSpace_pyStripL _⟩

theorem json3NormalizeData_encode (evs : List (List (Option String))) :
    json3NormalizeData (encodeEvents evs) =
      .ok (if collectSegTexts evs = [] then none
           else some (pyJoinNL (collectSegTexts evs))) := by
  have h0 : json3NormalizeData (encodeEvents evs) =
      (match eventsTexts
          (evs.map (fun segs => JVal.obj [("segs", JVal.arr (segs.map encodeSeg))])) with
       | Except.error err => Except.error err
       | Except.ok lines =>
         Except.ok (if pyStrip (pyJoinNL lines) = "" then none
                    else some (pyStrip (pyJoinNL lines)))) := rfl
  rw [h0, eventsTexts_encode]
  by_cases hL : collectSegTexts evs = []
  · rw [hL]
    rfl
  · rw [if_neg hL]
    have hall : ∀ x ∈ (collectSegTexts evs).map String.data, x ≠ [] ∧ noEdgeSpace x = true := by
      intro x hx
      rcases List.mem_map.mp hx with ⟨l, hl, hlx⟩
      have hmem := collectSegTexts_mem hl
      subst hlx
      exact ⟨string_data_ne_nil hmem.1, hmem.2⟩
    have hmapne : (collectSegTexts evs).map String.data ≠ [] := by
      intro he
      exact hL (List.map_eq_nil_iff.mp he)
    have hjoin_ne : joinNLL ((collectSegTexts evs).map String.data) ≠ [] :=
      joinNLL_ne_nil hmapne (fun x hx => (hall x hx).1)
    have hstr : pyStrip (pyJoinNL (collectSegTexts evs)) = pyJoinNL (collectSegTexts evs) := by
      unfold pyStrip pyJoinNL
      exact congrArg String.mk (pyStripL_joinNLL hmapne hall)
    have hne2 : pyJoinNL (collectSegTexts evs) ≠ "" := by
      intro he
      exact hjoin_ne (congrArg String.data he)
    rw [show (match (Except.ok (collectSegTexts evs) : Except PyErr (List String)) with
       | Except.error err => Except.error err
       | Except.ok lines =>
         Except.ok (if pyStrip (pyJoinNL lines) = "" then none
                    else some (pyStrip (pyJoinNL lines)))) =
       Except.ok (if pyStrip (pyJoinNL (collectSegTexts evs)) = "" then none
                  else some (pyStrip (pyJoinNL (collectSegTexts evs)))) from rfl]
    rw [hstr, if_neg hne2]

/-- C6: the json3 normalizer returns none on a blank payload, and on a
structured caption payload returns exactly the cleaned non-empty segment
texts (newlines collapsed to spaces, ends trimmed), joined with newlines in
event order, with an empty result reported as none rather than a
transcript. -/
theorem json3_normalizer_roundtrip (payload : String) (evs : List (List (Option String))) :
    (pyStrip payload = "" → parse_caption_payload payload "json3" = .ok none) ∧
    (pyStrip payload ≠ "" → jsonLoads payload = .ok (encodeEvents evs) →
      parse_caption_payload payload "json3" =
        .ok (if collectSegTexts evs = [] then none
             else some (pyJoinNL (collectSegTexts evs)))) := by
  constructor
  · intro hb
    unfold parse_caption_payload
    rw [if_pos hb]
  · intro hb hj
    unfold parse_caption_payload
    rw [if_neg hb, if_pos rfl]
    simp only [hj]
    exact json3NormalizeData_encode evs

/-- C6 witness. -/
theorem json3_normalizer_roundtrip_witness :
    parse_caption_payload
      "\x7b\"events\":[\x7b\"segs\":[\x7b\"utf8\":\" He\\nllo \"\x7d]\x7d,\x7b\"segs\":[\x7b\"utf8\":\"World\"\x7d]\x7d]\x7d"
      "json3" = .ok (some "He llo\nWorld") := by
  have h := (json3_normalizer_roundtrip
      "\x7b\"events\":[\x7b\"segs\":[\x7b\"utf8\":\" He\\nllo \"\x7d]\x7d,\x7b\"segs\":[\x7b\"utf8\":\"World\"\x7d]\x7d]\x7d"
      [[some " He\nllo "], [some "World"]]).2 (by decide) rfl
  rw [h]
  rfl

theorem pyStrip_pyStrip (s : String) : pyStrip (pyStrip s) = pyStrip s :=
  congrArg String.mk (pyStripL_idem s.data)

theorem map_eq_self_of_mem {f : String → String} :
    ∀ {l : List String}, (∀ a ∈ l, f a = a) → l.map f = l := by
  intro l
  induction l with
  | nil => intro _; rfl
  | cons a t ih =>
    intro h
    rw [List.map_cons, h a (by simp), ih (fun b hb => h b (by simp [hb]))]

theorem keepLine_ne_empty {extension l : String} (h : keepLine extension l = true) :
    l ≠ "" := by
  unfold keepLine at h
  rcases Bool.and_eq_true _ _ |>.mp h with ⟨h1, _⟩
  rcases Bool.and_eq_true _ _ |>.mp h1 with ⟨h2, _⟩
  rcases Bool.and_eq_true _ _ |>.mp h2 with ⟨h3, _⟩
  simpa using h3

theorem subtitleLines_mem {payload extension l : String}
    (h : l ∈ subtitleLines payload extension) :
    (∃ raw ∈ pySplitlines payload, l = pyStrip raw) ∧ keepLine extension l = true := by
  unfold subtitleLines at h
  rcases List.mem_filter.mp h with ⟨hmem, hkeep⟩
  rcases List.mem_map.mp hmem with ⟨raw, hraw, hl⟩
  exact ⟨⟨raw, hraw, hl.symm⟩, hkeep⟩

theorem subtitleLines_facts {payload extension l : String}
    (h : l ∈ subtitleLines payload extension) :
    l ≠ "" ∧ noEdgeSpace l.data = true ∧ (∀ c ∈ l.data, c ≠ '\n' ∧ c ≠ '\r') ∧
      pyStrip l = l ∧ keepLine extension l = true := by
  rcases subtitleLines_mem h with ⟨⟨raw, hraw, hl⟩, hkeep⟩
  have hne : l ≠ "" := keepLine_ne_empty hkeep
  have hdata : l.data = pyStripL raw.data := by rw [hl]; rfl
  refine ⟨hne, ?_, ?_, ?_, hkeep⟩
  · rw [hdata]
    exact noEdgeSpace_pyStripL raw.data
  · intro c hc
    rw [hdata] at hc
    have hcraw : c ∈ raw.data := mem_pyStripL hc
    unfold pySplitlines at hraw
    rcases List.mem_map.mp hraw with ⟨x, hx, hxe⟩
    have : raw.data = x := by rw [← hxe]
    rw [this] at hcraw
    have hns := mem_splitNlL hx
    exact ⟨fun he => hns.1 (he ▸ hcraw), fun he => hns.2 (he ▸ hcraw)⟩
  · rw [hl]
    exact pyStrip_pyStrip raw

/-- C7 (amended): on a line-oriented subtitle payload the normalizer output
never contains blank lines, time-range lines or WEBVTT header lines, and
numeric-only cue-index lines are stripped exactly when the format tag is
srt (a WebVTT-tagged payload keeps them); the normalizer is idempotent on
its own output for every format tag. -/
theorem subtitle_normalizer_strips_idempotent (payload extension t : String)
    (hext : extension ≠ "json3")
    (h : parse_caption_payload payload extension = .ok (some t)) :
    (∀ l ∈ pySplitlines t,
      l ≠ "" ∧ containsSub l "-->" = false ∧
      (extension = "srt" → pyIsDigitStr l = false) ∧ startsWithWebvtt l = false) ∧
    parse_caption_payload t extension = .ok (some t) := by
  unfold parse_caption_payload at h
  by_cases hb : pyStrip payload = ""
  · rw [if_pos hb] at h
    simp at h
  · rw [if_neg hb, if_neg hext] at h
    have h2 : (Except.ok
        (if pyStrip (pyJoinNL (subtitleLines payload extension)) = "" then none
         else some (pyStrip (pyJoinNL (subtitleLines payload extension))))
        : Except PyErr (Option String)) = Except.ok (some t) := h
    by_cases htr : pyStrip (pyJoinNL (subtitleLines payload extension)) = ""
    · rw [if_pos htr] at h2
      simp at h2
    · rw [if_neg htr] at h2
      have hteq : pyStrip (pyJoinNL (subtitleLines payload extension)) = t := by
        simpa using h2
      have hLne : subtitleLines payload extension ≠ [] := by
        intro he
        apply htr
        rw [he]
        rfl
      have hall : ∀ x ∈ (subtitleLines payload extension).map String.data,
          x ≠ [] ∧ noEdgeSpace x = true := by
        intro x hx
        rcases List.mem_map.mp hx with ⟨l, hl, hlx⟩
        have hf := subtitleLines_facts hl
        subst hlx
        exact ⟨string_data_ne_nil hf.1, hf.2.1⟩
      have hmapne : (subtitleLines payload extension).map String.data ≠ [] := by
        intro he
        exact hLne (List.map_eq_nil_iff.mp he)
      have hstr : pyStrip (pyJoinNL (subtitleLines payload extension)) =
          pyJoinNL (subtitleLines payload extension) :=
        congrArg String.mk (pyStripL_joinNLL hmapne hall)
      have ht : t = pyJoinNL (subtitleLines payload extension) := by
        rw [← hteq]
        exact hstr
      have hsplit : pySplitlines t = subtitleLines payload extension := by
        rw [ht]
        unfold pySplitlines pyJoinNL
        rw [show (String.mk (joinNLL ((subtitleLines payload extension).map String.data))).data
            = joinNLL ((subtitleLines payload extension).map String.data) from rfl]
        rw [splitNlL_joinNLL hmapne (by
          intro x hx
          rcases List.mem_map.mp hx with ⟨l, hl, hlx⟩
          have hf := subtitleLines_facts hl
          subst hlx
          exact ⟨string_data_ne_nil hf.1, hf.2.2.1⟩)]
        rw [List.map_map, show String.mk ∘ String.data = id from funext string_mk_data,
          List.map_id]
      have htne : t ≠ "" := by
        rw [ht]
        intro he
        exact joinNLL_ne_nil hmapne (fun x hx => (hall x hx).1) (congrArg String.data he)
      have htstrip : pyStrip t = t := by
        rw [ht]
        exact hstr
      constructor
      · intro l hl
        rw [hsplit] at hl
        have hf := subtitleLines_facts hl
        have hk := hf.2.2.2.2
        unfold keepLine at hk
        rcases (Bool.and_eq_true _ _).mp hk with ⟨h123, h4⟩
        rcases (Bool.and_eq_true _ _).mp h123 with ⟨h12, h3⟩
        rcases (Bool.and_eq_true _ _).mp h12 with ⟨_, hc2⟩
        refine ⟨hf.1, by simpa using hc2, ?_, by simpa using h4⟩
        intro hsrt
        simp only [hsrt] at h3
        simpa using h3
      · unfold parse_caption_payload
        rw [htstrip, if_neg htne, if_neg hext]
        have hsub : subtitleLines t extension = subtitleLines payload extension := by
          unfold subtitleLines
          rw [hsplit]
          rw [map_eq_self_of_mem (fun a ha => (subtitleLines_facts ha).2.2.2.1)]
          exact List.filter_eq_self.mpr (fun a ha => (subtitleLines_facts ha).2.2.2.2)
        rw [hsub]
        show (Except.ok
            (if pyStrip (pyJoinNL (subtitleLines payload extension)) = "" then none
             else some (pyStrip (pyJoinNL (subtitleLines payload extension))))
            : Except PyErr (Option String)) = Except.ok (some t)
        rw [hstr, ← ht, if_neg htne]

/-- C7 witness. -/
theorem subtitle_normalizer_witness :
    (∀ l ∈ pySplitlines "hello world",
      l ≠ "" ∧ containsSub l "-->" = false ∧
      ("srt" = "srt" → pyIsDigitStr l = false) ∧ startsWithWebvtt l = false) ∧
    parse_caption_payload "hello world" "srt" = .ok (some "hello world") :=
  subtitle_normalizer_strips_idempotent
    "WEBVTT\n1\n00:00:00 --> 00:00:05\nhello world" "srt" "hello world"
    (by decide) rfl

/-- C7 counterexample: under the vtt format tag a numeric-only cue-index
line survives normalization, so the normalizer does not strip numeric
cue-index lines for every line-oriented subtitle format. -/
theorem subtitle_vtt_numeric_counterexample :
    parse_caption_payload "1\nhello world" "vtt" = .ok (some "1\nhello world") ∧
    pyIsDigitStr "1" = true ∧ "1" ∈ pySplitlines "1\nhello world" :=
  ⟨rfl, rfl, by decide⟩
